import Mathlib

/-!
Verification of the echeng220/algo_trading strategy layer.

Shallow embedding conventions:
* Python floats (prices, cash, share quantities) are modelled as exact
  rationals (`ℚ`); the float literals `0.95`, `1.05`, `0.9`, `0.5` of the
  source become `19/20`, `21/20`, `9/10`, `1/2`.
* Python `int(x)` (truncation toward zero) is `pyInt`.
* A pyalgotrade indicator value at the current bar (`self.ma[-1]`,
  `self.bbands.getLowerBand()[-1]`, ...) is an `Option ℚ` input: `none` is
  Python `None` (window not yet full).
* An `onBars` callback is a function from its inputs and the current
  `self.position` attribute (`Option Unit`: `none` = Python `None`) to the
  new `self.position` value and the list of broker actions it submits.
  Callbacks that can raise a Python exception return `Except PyErr ...`.
* Dates are `(year, month, day)` triples; ISO-string comparison of dates is
  numeric comparison of `Date.key`.
-/

namespace AlgoTrading

/-- Python exceptions that the embedded code can raise. -/
inductive PyErr where
  | typeError
  | nameError
  | fileNotFoundError
deriving DecidableEq, Repr

/-- Python `int(x)`: truncation toward zero.  On a rational in lowest terms
this is truncating division of the numerator by the denominator. -/
def pyInt (q : ℚ) : ℤ := q.num.tdiv q.den

/-- An order intent submitted by a strategy to the broker:
`enterLong q` embeds `self.enterLong(self.instrument, q)` and `exitMarket`
embeds `self.position.exitMarket()`. -/
inductive Action where
  | enterLong (quantity : ℚ)
  | exitMarket
deriving DecidableEq, Repr

/-- A calendar date (year, month, day). -/
structure Date where
  y : Nat
  m : Nat
  d : Nat
deriving DecidableEq, Repr

/-- Numeric key realising ISO-8601 string order on dates. -/
def Date.key (a : Date) : Nat := a.y * 10000 + a.m * 100 + a.d

/-- Same `%Y-%m` group key (the `groupby` key of `get_last_days_of_month`). -/
def sameYM (a b : Date) : Bool := a.y == b.y && a.m == b.m

/-- Date `x` lies in the closed range `[lo, hi]`. -/
def inRange (lo hi x : Date) : Bool := decide (lo.key ≤ x.key) && decide (x.key ≤ hi.key)

/-- Embedding of the core of `get_last_days_of_month` (src/utils.py):
`df.groupby by the "%Y-%m" key with .tail(1)` keeps, in original order,
the last row of each year-month group of the (chronologically sorted)
schedule. -/
def lastDaysOfMonth : List Date → List Date
  | [] => []
  | d :: rest =>
    if rest.any (sameYM d) then lastDaysOfMonth rest
    else d :: lastDaysOfMonth rest

/-- Hardcoded start of the module-level calendar call in
src/pyalgo_strategies.py line 8 / src/strategies.py line 8. -/
def gateRangeStart : Date := ⟨2000, 1, 1⟩

/-- Hardcoded end of the module-level calendar call
(the module-level call with exchange "NYSE" and range "2000-01-01" to
"2022-03-11"). -/
def gateRangeEnd : Date := ⟨2022, 3, 11⟩

/-- Embedding of the module-level binding
`last_days_of_month` (src line 8), which calls `get_last_days_of_month`
with exchange "NYSE" and the hardcoded range "2000-01-01" to "2022-03-11".
Modelled from the spec: the external calendar service (`pandas_market_calendars`,
not under src/) returns, for `schedule(start_date, end_date)`, the exchange's
trading dates that lie within `[start_date, end_date]`; here it is the full
NYSE trading calendar `nyseDays` clipped to the hardcoded range. -/
def module_last_days_of_month (nyseDays : List Date) : List Date :=
  lastDaysOfMonth (nyseDays.filter (inRange gateRangeStart gateRangeEnd))

/-- Concrete fragment of the NYSE trading calendar around March 2022 used as
a counterexample input (2022-03-17 was a NYSE trading day). -/
def cexCalendar : List Date :=
  [⟨2022, 2, 28⟩, ⟨2022, 3, 10⟩, ⟨2022, 3, 11⟩, ⟨2022, 3, 14⟩,
   ⟨2022, 3, 15⟩, ⟨2022, 3, 16⟩, ⟨2022, 3, 17⟩]

/-- End date "2022-03-17" of the backtest run configured in
src/strategies.py `__main__` (also the end date in src/pyalgo_strategies.py
before the event override). -/
def cexRunEnd : Date := ⟨2022, 3, 17⟩

/-- One OHLC bar with its adjusted close. -/
structure Bar where
  high : ℚ
  low : ℚ
  close : ℚ
  adjClose : ℚ
deriving DecidableEq, Repr

/-- Maximum of a list of rationals (`none` on the empty list). -/
def listMax : List ℚ → Option ℚ
  | [] => none
  | x :: rest =>
    match listMax rest with
    | none => some x
    | some m => some (max x m)

/-- Minimum of a list of rationals (`none` on the empty list). -/
def listMin : List ℚ → Option ℚ
  | [] => none
  | x :: rest =>
    match listMin rest with
    | none => some x
    | some m => some (min x m)

/-- The last `w` values of `xs` up to and including index `i`. -/
def windowSlice (xs : List ℚ) (w i : Nat) : List ℚ :=
  (xs.take (i + 1)).drop (i + 1 - w)

/-- Modelled from the spec: the pyalgotrade `highlow.High` indicator
(library code, not under src/): position `i` holds `None` for `i < window-1`
(insufficient history) and the max of the last `window` series values
otherwise (§4.2 of the spec). -/
def rollingHighAt (xs : List ℚ) (w i : Nat) : Option ℚ :=
  if w ≤ i + 1 ∧ i < xs.length then listMax (windowSlice xs w i) else none

/-- Modelled from the spec: the pyalgotrade `highlow.Low` indicator, dually
to `rollingHighAt`. -/
def rollingLowAt (xs : List ℚ) (w i : Nat) : Option ℚ :=
  if w ≤ i + 1 ∧ i < xs.length then listMin (windowSlice xs w i) else none

/-- Embedding of Double7Strategy's constructor line
`self.instrument_high = highlow.High(feed[instrument].getAdjCloseDataSeries(), 7)`
(src/strategies.py line 157, src/pyalgo_strategies.py line 156): the rolling
high is computed over the ADJUSTED CLOSE series of the instrument. -/
def double7_instrument_high (bars : List Bar) (i : Nat) : Option ℚ :=
  rollingHighAt (bars.map Bar.adjClose) 7 i

/-- Embedding of Double7Strategy's constructor line
`self.instrument_low = highlow.Low(feed[instrument].getAdjCloseDataSeries(), 7)`. -/
def double7_instrument_low (bars : List Bar) (i : Nat) : Option ℚ :=
  rollingLowAt (bars.map Bar.adjClose) 7 i

/-- Definition following the claim's words (for comparison with the source):
the rolling high as the max of the last 7 BAR HIGHS. -/
def specHighOfBars (bars : List Bar) (i : Nat) : Option ℚ :=
  rollingHighAt (bars.map Bar.high) 7 i

/-- Definition following the claim's words: the rolling low as the min of
the last 7 BAR LOWS. -/
def specLowOfBars (bars : List Bar) (i : Nat) : Option ℚ :=
  rollingLowAt (bars.map Bar.low) 7 i

/-- Concrete 7-bar series on which bar highs/lows differ from adjusted
closes. -/
def cexBars : List Bar :=
  [⟨100, 1, 50, 50⟩, ⟨101, 2, 51, 51⟩, ⟨102, 3, 52, 52⟩, ⟨103, 4, 53, 53⟩,
   ⟨104, 5, 54, 54⟩, ⟨105, 6, 55, 55⟩, ⟨106, 7, 56, 56⟩]

-- Position sizing, one definition per source site.

/-- Embedding of BuyAndHoldStrategy.onBars sizing (src/strategies.py lines
41-44): `cash = broker.getCash() * 0.95; quantity = cash / close`. -/
def buyAndHoldQuantity (cash close : ℚ) : ℚ := cash * (19/20) / close

/-- Embedding of SMA200Strategy.onBars sizing (src/strategies.py lines
90-94), identical formula at a distinct source site. -/
def sma200Quantity (cash close : ℚ) : ℚ := cash * (19/20) / close

/-- Embedding of BollingerStrategy.onBars sizing (src/strategies.py line
142): `quantity = int(self.getBroker().getCash(False) / close)` — the FULL
broker cash, floored, no buffer. -/
def bollingerQuantity (cash close : ℚ) : ℚ := ((pyInt (cash / close) : ℤ) : ℚ)

/-- Embedding of Double7Strategy.onBars sizing (src/strategies.py line 186):
`quantity = int(self.getBroker().getCash(False) / close)`. -/
def double7Quantity (cash close : ℚ) : ℚ := ((pyInt (cash / close) : ℤ) : ℚ)

/-- Embedding of VIX10Strategy.onBars sizing (src/pyalgo_strategies.py lines
234-238): `cash = broker.getCash() * 0.95; quantity = 0.5 * cash / close`. -/
def vix10Quantity (cash close : ℚ) : ℚ := (1/2) * (cash * (19/20)) / close

/-- Embedding of RSI2Strategy.onBars sizing (src/pyalgo_strategies.py lines
312-313): `cash = self.getBroker().getCash() * 0.9; quantity = int(cash / price)`. -/
def rsi2Quantity (cash price : ℚ) : ℚ := ((pyInt (cash * (9/10) / price) : ℤ) : ℚ)

-- Strategy onBars embeddings.  `pos` is the `self.position` attribute
-- (`none` = Python `None`); the result is the new `self.position` and the
-- submitted order intents.

/-- Embedding of BuyAndHoldStrategy.onBars (src/strategies.py lines 32-46
and src/pyalgo_strategies.py lines 32-46): if `self.position is None`,
buffer broker cash by the hardcoded 0.95 and enter long; else no-op. -/
def buyAndHold_onBars (cash close : ℚ) (pos : Option Unit) :
    Option Unit × List Action :=
  match pos with
  | none => (some (), [Action.enterLong (buyAndHoldQuantity cash close)])
  | some u => (some u, [])

/-- Replay of BuyAndHoldStrategy from bar index `i`: `cashAt j` is the
broker cash visible on bar `j`; returns the final position and the orders
submitted, tagged with their submission bar index. -/
def buyAndHold_runAux (cashAt : Nat → ℚ) :
    Nat → Option Unit → List ℚ → Option Unit × List (Nat × Action)
  | _, pos, [] => (pos, [])
  | i, pos, c :: rest =>
    let step := buyAndHold_onBars (cashAt i) c pos
    let next := buyAndHold_runAux cashAt (i + 1) step.1 rest
    (next.1, step.2.map (fun a => (i, a)) ++ next.2)

/-- Full replay of BuyAndHoldStrategy over a close series, starting with no
position. -/
def buyAndHold_run (cashAt : Nat → ℚ) (closes : List ℚ) :
    Option Unit × List (Nat × Action) :=
  buyAndHold_runAux cashAt 0 none closes

/-- Embedding of SMA200Strategy.onBars (src/strategies.py lines 75-102):
no-op while the 200-day SMA is unavailable; gated on membership of the
bar's date in the module-level `last_days_of_month`; enter above the SMA
when flat, exit below it when long. -/
def sma200_onBars (maV : Option ℚ) (gate : List Date) (close : ℚ) (date : Date)
    (cash : ℚ) (pos : Option Unit) : Option Unit × List Action :=
  match maV with
  | none => (pos, [])
  | some m =>
    if date ∈ gate then
      match pos with
      | none =>
        if close > m then (some (), [Action.enterLong (sma200Quantity cash close)])
        else (none, [])
      | some u =>
        if close < m then (none, [Action.exitMarket]) else (some u, [])
    else (pos, [])

/-- Embedding of BollingerStrategy.onBars (src/strategies.py lines
127-146).  The library computes both bands over the same window, so they
are `None` at exactly the same indices; the pair models the two reads
`getLowerBand()[-1]` / `getUpperBand()[-1]`.  Entry and exit test the
broker's share count, not `self.position`, and the exit branch does not
reset `self.position`. -/
def bollinger_onBars (bands : Option (ℚ × ℚ)) (close cash shares : ℚ)
    (pos : Option Unit) : Option Unit × List Action :=
  match bands with
  | none => (pos, [])
  | some (lower, upper) =>
    if shares = 0 ∧ close < lower then
      (some (), [Action.enterLong (bollingerQuantity cash close)])
    else if shares > 0 ∧ close > upper then (pos, [Action.exitMarket])
    else (pos, [])

/-- Embedding of Double7Strategy.onBars (src/strategies.py lines 174-189,
src/pyalgo_strategies.py lines 171-186): only the 200-day SMA is
None-checked; the 7-day low/high are read inside the branches, so comparing
against a still-unavailable (`None`) low/high raises a Python TypeError.
The exit branch does not reset `self.position`. -/
def double7_onBars (maV lowV highV : Option ℚ) (close cash shares : ℚ)
    (pos : Option Unit) : Except PyErr (Option Unit × List Action) :=
  match maV with
  | none => Except.ok (pos, [])
  | some m =>
    if close > m then
      if shares = 0 then
        match lowV with
        | none => Except.error PyErr.typeError
        | some lo =>
          if close ≤ lo then
            Except.ok (some (), [Action.enterLong (double7Quantity cash close)])
          else Except.ok (pos, [])
      else if shares > 0 then
        match highV with
        | none => Except.error PyErr.typeError
        | some hi =>
          if close ≥ hi then Except.ok (pos, [Action.exitMarket])
          else Except.ok (pos, [])
      else Except.ok (pos, [])
    else Except.ok (pos, [])

/-- Embedding of VIX10Strategy.onBars (src/pyalgo_strategies.py lines
214-253): no-op while either SMA is unavailable; month-end gated; above the
200-day SMA it enters half of the 0.95-buffered cash when the VIX closes
more than 5% above its 10-day SMA (without checking for an existing
position), exits when the VIX is below that level; below the 200-day SMA it
exits under the same VIX condition. -/
def vix10_onBars (vixMaV maV : Option ℚ) (gate : List Date) (vixClose close : ℚ)
    (date : Date) (cash0 : ℚ) (pos : Option Unit) : Option Unit × List Action :=
  match vixMaV, maV with
  | some vm, some m =>
    if date ∈ gate then
      if close > m then
        let cash := cash0 * (19/20)
        if vixClose > vm * (21/20) ∧ cash > close then
          (some (), [Action.enterLong (vix10Quantity cash0 close)])
        else if vixClose < vm * (21/20) ∧ pos ≠ none then
          (none, [Action.exitMarket])
        else (pos, [])
      else
        if pos ≠ none ∧ vixClose < vm * (21/20) then (none, [Action.exitMarket])
        else (pos, [])
    else (pos, [])
  | _, _ => (pos, [])

/-- Embedding of RSI2Strategy.onBars together with enterLongSignal and
exitLongSignal (src/pyalgo_strategies.py lines 287-314): no-op while any of
entry SMA, exit SMA or RSI is unavailable; when long, exit iff the price
series crosses above the exit SMA (`crossAboveExit` is the boolean value of
the library call `cross.cross_above(self.instrument_price, self.exit_ma)`);
when flat, enter iff `price > entry_ma[-1] and rsi[-1] <= oversold`. -/
def rsi2_onBars (entryMaV exitMaV rsiV : Option ℚ) (oversold price cash : ℚ)
    (crossAboveExit : Bool) (pos : Option Unit) : Option Unit × List Action :=
  match entryMaV, exitMaV, rsiV with
  | some em, some _, some rv =>
    match pos with
    | some _ =>
      if crossAboveExit then (none, [Action.exitMarket]) else (pos, [])
    | none =>
      if price > em ∧ rv ≤ oversold then
        (some (), [Action.enterLong (rsi2Quantity cash price)])
      else (none, [])
  | _, _, _ => (pos, [])

/-- Terminal state of a market order at its fill bar. -/
inductive FillResult where
  | completed (cost : ℚ)
  | rejected
deriving DecidableEq, Repr

/-- Modelled from the spec: the backtesting broker (pyalgotrade library
code, not under src/).  A market buy submitted on bar i fills on bar i+1 at
that bar's adjusted close; required cash is
`fill_price * quantity * (1 + commission_rate)`; with insufficient cash the
order terminates Rejected (reported, not retried), else Completed
(spec §4.3). -/
def brokerBuyFill (cash commission fillPrice quantity : ℚ) : FillResult :=
  if cash < fillPrice * quantity * (1 + commission) then FillResult.rejected
  else FillResult.completed (fillPrice * quantity * (1 + commission))

/-- The close series of the spec §8 scenario. -/
def scenarioCloses : List ℚ := [10, 11, 9, 12, 13]

-- The Trades analyzer summary and log_backtest.

/-- One closed round-trip trade as aggregated by the Trades analyzer: net
profit and per-trade return. -/
structure TradeRecord where
  profit : ℚ
  ret : ℚ
deriving DecidableEq, Repr

/-- Modelled from the spec: `trade_analyzer.getProfitableCount()` counts
closed trades with positive profit (analyzer library code, not under
src/). -/
def profitableTrades (ts : List TradeRecord) : List TradeRecord :=
  ts.filter (fun t => 0 < t.profit)

/-- Modelled from the spec: `trade_analyzer.getUnprofitableCount()` counts
closed trades with negative profit. -/
def unprofitableTrades (ts : List TradeRecord) : List TradeRecord :=
  ts.filter (fun t => t.profit < 0)

/-- Arithmetic mean of a list (numpy `.mean()`), junk value 0 on the empty
list — `log_backtest` only evaluates it under a nonemptiness guard. -/
def meanQ (xs : List ℚ) : ℚ := xs.sum / xs.length

/-- A value in the JSON report written by log_backtest. -/
inductive LogValue where
  | str (s : String)
  | num (q : ℚ)
  | nat (n : Nat)
  | block (entries : List (String × ℚ))
deriving DecidableEq, Repr

/-- The non-trade metadata inputs of log_backtest (src/utils.py lines
83-99): strategy/instrument/date strings and the analyzer scalar outputs. -/
structure BacktestMeta where
  strategyName : String
  instrument : String
  startDate : String
  endDate : String
  runDate : String
  finalValue : ℚ
  cumReturn : ℚ
  sharpe : ℚ
  maxDrawdown : ℚ
  longestDDDuration : String

/-- Statistics block of a trade subset (src/utils.py lines 126-160).
`std` is numpy's standard deviation, an irrational-valued function no claim
depends on, passed as an abstract parameter. -/
def tradeStatBlock (std : List ℚ → ℚ) (count : Nat) (profits rets : List ℚ) :
    List (String × ℚ) :=
  [("number_of_trades", (count : ℚ)),
   ("avg_profit_$", meanQ profits),
   ("profit_std_$", std profits),
   ("max_profit_$", (listMax profits).getD 0),
   ("min_profit_$", (listMin profits).getD 0),
   ("avg_return_%", meanQ rets * 100),
   ("return_std_%", std rets * 100),
   ("max_return_%", (listMax rets).getD 0 * 100),
   ("min_return_%", (listMin rets).getD 0 * 100)]

/-- Embedding of log_backtest (src/utils.py lines 79-163) as the ordered
key/value report it writes: the base block always, the per-trade statistics
only under the guards `getCount() > 0`, `getProfitableCount() > 0`,
`getUnprofitableCount() > 0`. -/
def log_backtest (meta : BacktestMeta) (std : List ℚ → ℚ)
    (ts : List TradeRecord) : List (String × LogValue) :=
  let base : List (String × LogValue) :=
    [("strategy", LogValue.str meta.strategyName),
     ("instrument", LogValue.str meta.instrument),
     ("start_date", LogValue.str meta.startDate),
     ("end_date", LogValue.str meta.endDate),
     ("run_date", LogValue.str meta.runDate),
     ("final_portfolio_value_$", LogValue.num meta.finalValue),
     ("cumulative_returns_%", LogValue.num (meta.cumReturn * 100)),
     ("sharpe_ratio", LogValue.num meta.sharpe),
     ("max_drawdown_%", LogValue.num (meta.maxDrawdown * 100)),
     ("longest_drawdown_duration", LogValue.str meta.longestDDDuration),
     ("total_trades", LogValue.nat ts.length)]
  let allStats : List (String × LogValue) :=
    if 0 < ts.length then
      [("avg_profit_$", LogValue.num (meanQ (ts.map TradeRecord.profit))),
       ("profit_std_$", LogValue.num (std (ts.map TradeRecord.profit))),
       ("max_profit_$", LogValue.num ((listMax (ts.map TradeRecord.profit)).getD 0)),
       ("min_profit_$", LogValue.num ((listMin (ts.map TradeRecord.profit)).getD 0)),
       ("avg_return_%", LogValue.num (meanQ (ts.map TradeRecord.ret) * 100)),
       ("return_std_%", LogValue.num (std (ts.map TradeRecord.ret) * 100)),
       ("max_return_%", LogValue.num ((listMax (ts.map TradeRecord.ret)).getD 0 * 100)),
       ("min_return_%", LogValue.num ((listMin (ts.map TradeRecord.ret)).getD 0 * 100))]
    else []
  let profBlock : List (String × LogValue) :=
    if 0 < (profitableTrades ts).length then
      [("profitable_trades", LogValue.block
        (tradeStatBlock std (profitableTrades ts).length
          ((profitableTrades ts).map TradeRecord.profit)
          ((ts.map TradeRecord.ret).filter (fun r => 0 < r))))]
    else []
  let unprofBlock : List (String × LogValue) :=
    if 0 < (unprofitableTrades ts).length then
      [("unprofitable_trades", LogValue.block
        (tradeStatBlock std (unprofitableTrades ts).length
          ((unprofitableTrades ts).map TradeRecord.profit)
          ((ts.map TradeRecord.ret).filter (fun r => r < 0))))]
    else []
  base ++ allStats ++ profBlock ++ unprofBlock

-- RSI2Strategy construction.

/-- The attributes RSI2Strategy.__init__ would set on a new instance. -/
structure RSI2State where
  instrument : String
  index : String
  entryMaInterval : Nat
  exitMaInterval : Nat
  rsiPeriod : Nat
  overbought : ℚ
  oversold : ℚ
deriving DecidableEq, Repr

/-- Embedding of RSI2Strategy.__init__ (src/pyalgo_strategies.py lines
256-273).  The statement `self.index = index` reads the free name `index`,
which is neither a parameter of `__init__` nor defined in the class, so
Python resolves it in the module's global scope at call time
(`moduleIndex`); when that binding is absent the lookup raises NameError
and object construction fails. -/
def RSI2Strategy_init (moduleIndex : Option String) (instrument : String)
    (entry_ma_interval exit_ma_interval rsi_period : Nat)
    (overbought_threshold oversold_threshold : ℚ) (cash : ℚ) :
    Except PyErr RSI2State :=
  match moduleIndex with
  | none => Except.error PyErr.nameError
  | some ix =>
    Except.ok ⟨instrument, ix, entry_ma_interval, exit_ma_interval,
      rsi_period, overbought_threshold, oversold_threshold⟩

-- CSV path round trip between get_ticker_data and create_feed.

/-- ASCII case table backing Python `str.upper()` (tickers are ASCII). -/
def upperTable : List (Char × Char) :=
  [('a', 'A'), ('b', 'B'), ('c', 'C'), ('d', 'D'), ('e', 'E'), ('f', 'F'),
   ('g', 'G'), ('h', 'H'), ('i', 'I'), ('j', 'J'), ('k', 'K'), ('l', 'L'),
   ('m', 'M'), ('n', 'N'), ('o', 'O'), ('p', 'P'), ('q', 'Q'), ('r', 'R'),
   ('s', 'S'), ('t', 'T'), ('u', 'U'), ('v', 'V'), ('w', 'W'), ('x', 'X'),
   ('y', 'Y'), ('z', 'Z')]

/-- Python `str.upper()` on one character: ASCII lowercase letters map to
uppercase, all other characters are unchanged. -/
def pyUpperChar (c : Char) : Char :=
  ((upperTable.find? (fun p => p.1 == c)).map Prod.snd).getD c

/-- Python `str.upper()` on a string, as a character list. -/
def pyUpper (s : List Char) : List Char := s.map pyUpperChar

/-- Python str.replace of dot by dash: single-character replacement is a
character map. -/
def replaceDot (s : List Char) : List Char :=
  s.map (fun c => if c = '.' then '-' else c)

/-- Embedding of the CSV path written by get_ticker_data
(src/import_data.py line 7):
`data\TICKER-with-dots-replaced_(interval)_(start-end).csv`. -/
def get_ticker_data_path (ticker interval startDate endDate : List Char) :
    List Char :=
  "data\\".toList ++ (replaceDot (pyUpper ticker) ++ ("_(".toList ++ (interval ++
    (")_(".toList ++ (startDate ++ ("-".toList ++ (endDate ++ ").csv".toList)))))))

/-- Embedding of the CSV path read by create_feed (src/utils.py lines
27-30): `data\TICKER_(interval)_(start-end).csv` — no dot replacement. -/
def feed_csv_path (ticker interval startDate endDate : List Char) : List Char :=
  "data\\".toList ++ (pyUpper ticker ++ ("_(".toList ++ (interval ++
    (")_(".toList ++ (startDate ++ ("-".toList ++ (endDate ++ ").csv".toList)))))))

/-- `feed.addBarsFromCSV` against the set of existing files:
FileNotFoundError when the path is absent. -/
def addBarsFromCSV (files : List (List Char)) (path : List Char) :
    Except PyErr Unit :=
  if path ∈ files then Except.ok () else Except.error PyErr.fileNotFoundError

/-- Embedding of create_feed's recovery branch (src/utils.py lines 28-30):
after the first `addBarsFromCSV` raised FileNotFoundError, create_feed
calls `get_ticker_data(ticker, start_date, end_date)` WITHOUT forwarding
its `interval`, so the fetch writes the path for the default interval
"1d"; it then retries the read at its own path. -/
def create_feed_retry (files : List (List Char))
    (ticker interval startDate endDate : List Char) : Except PyErr Unit :=
  addBarsFromCSV
    (get_ticker_data_path ticker "1d".toList startDate endDate :: files)
    (feed_csv_path ticker interval startDate endDate)

-- Helper lemmas about `lastDaysOfMonth`.

theorem lastDaysOfMonth_subset {d : Date} :
    ∀ {l : List Date}, d ∈ lastDaysOfMonth l → d ∈ l := by
  intro l
  induction l with
  | nil => intro h; exact absurd h (by simp [lastDaysOfMonth])
  | cons x rest ih =>
    intro h
    by_cases hx : rest.any (sameYM x)
    · simp only [lastDaysOfMonth, if_pos hx] at h
      exact List.mem_cons_of_mem x (ih h)
    · simp only [lastDaysOfMonth, if_neg hx] at h
      rcases List.mem_cons.mp h with h1 | h2
      · exact h1 ▸ List.mem_cons_self x rest
      · exact List.mem_cons_of_mem x (ih h2)

theorem lastDaysOfMonth_mem_of_last {d : Date} :
    ∀ {l : List Date}, l.Pairwise (fun a b => a.key < b.key) → d ∈ l →
      (∀ e ∈ l, sameYM d e = true → e.key ≤ d.key) → d ∈ lastDaysOfMonth l := by
  intro l
  induction l with
  | nil => intro _ h; exact absurd h (by simp)
  | cons x rest ih =>
    intro hsort hmem hlast
    have hsortRest : rest.Pairwise (fun a b => a.key < b.key) :=
      (List.pairwise_cons.mp hsort).2
    by_cases hx : rest.any (sameYM x)
    · simp only [lastDaysOfMonth, if_pos hx]
      have hdRest : d ∈ rest := by
        rcases List.mem_cons.mp hmem with h1 | h2
        · subst h1
          rcases List.any_eq_true.mp hx with ⟨e, heMem, heYM⟩
          have h1 : e.key ≤ d.key := hlast e (List.mem_cons_of_mem d heMem) heYM
          have h2 : d.key < e.key := (List.pairwise_cons.mp hsort).1 e heMem
          omega
        · exact h2
      exact ih hsortRest hdRest (fun e he hYM => hlast e (List.mem_cons_of_mem x he) hYM)
    · simp only [lastDaysOfMonth, if_neg hx]
      rcases List.mem_cons.mp hmem with h1 | h2
      · exact h1 ▸ List.mem_cons_self _ _
      · exact List.mem_cons_of_mem x
          (ih hsortRest h2 (fun e he hYM => hlast e (List.mem_cons_of_mem x he) hYM))

theorem lastDaysOfMonth_last_of_mem :
    ∀ {l : List Date}, l.Pairwise (fun a b => a.key < b.key) →
      ∀ {d : Date}, d ∈ lastDaysOfMonth l →
        ∀ e ∈ l, sameYM d e = true → e.key ≤ d.key := by
  intro l
  induction l with
  | nil => intro _ d h; exact absurd h (by simp [lastDaysOfMonth])
  | cons x rest ih =>
    intro hsort d h e he hYM
    have hx : ∀ a ∈ rest, x.key < a.key := (List.pairwise_cons.mp hsort).1
    have hsortRest : rest.Pairwise (fun a b => a.key < b.key) :=
      (List.pairwise_cons.mp hsort).2
    by_cases hany : rest.any (sameYM x)
    · simp only [lastDaysOfMonth, if_pos hany] at h
      have hdRest : d ∈ rest := lastDaysOfMonth_subset h
      rcases List.mem_cons.mp he with he1 | he2
      · subst he1; exact (hx d hdRest).le
      · exact ih hsortRest h e he2 hYM
    · simp only [lastDaysOfMonth, if_neg hany] at h
      rcases List.mem_cons.mp h with hd1 | hd2
      · subst hd1
        rcases List.mem_cons.mp he with he1 | he2
        · subst he1; exact le_refl _
        · exact absurd (List.any_eq_true.mpr ⟨e, he2, hYM⟩) hany
      · have hdRest : d ∈ rest := lastDaysOfMonth_subset hd2
        rcases List.mem_cons.mp he with he1 | he2
        · subst he1; exact (hx d hdRest).le
        · exact ih hsortRest hd2 e he2 hYM

/-- C1 counterexample: the month-end gate is NOT scoped to the backtest run.
The run configured in src/strategies.py `__main__` ends 2022-03-17, but the
module-level gate set is computed once for the hardcoded range
2000-01-01..2022-03-11.  With a concrete NYSE calendar fragment in which
2022-03-17 is a trading day, 2022-03-17 is the last trading day of its month
within the run's date range, yet the gate does not admit it. -/
theorem monthEndGate_not_run_scoped :
    cexRunEnd ∈ cexCalendar.filter (inRange gateRangeStart cexRunEnd)
    ∧ (∀ e ∈ cexCalendar.filter (inRange gateRangeStart cexRunEnd),
        sameYM cexRunEnd e = true → e.key ≤ cexRunEnd.key)
    ∧ cexRunEnd ∉ module_last_days_of_month cexCalendar := by
  decide

/-- C1 amended: the gate set is the module-level global
`last_days_of_month`, computed once for the hardcoded range
2000-01-01..2022-03-11 and shared by every run.  For a chronologically
sorted exchange calendar, a date is admitted by the gate IFF it is a
calendar trading day lying in that fixed range that is followed by no later
same-month trading day inside the fixed range — so every admitted date lies
in the fixed range (bars after 2022-03-11 are never admitted, whatever the
run's range), and within the fixed range the gate admits exactly the last
trading day of each month. -/
theorem monthEndGate_fixed_range (cal : List Date)
    (hsort : cal.Pairwise (fun a b => a.key < b.key)) (d : Date) :
    d ∈ module_last_days_of_month cal ↔
      (d ∈ cal ∧ inRange gateRangeStart gateRangeEnd d = true ∧
        ∀ e ∈ cal, sameYM d e = true →
          inRange gateRangeStart gateRangeEnd e = true → e.key ≤ d.key) := by
  have hsortF : (cal.filter (inRange gateRangeStart gateRangeEnd)).Pairwise
      (fun a b => a.key < b.key) := hsort.filter _
  constructor
  · intro h
    have hmemF := lastDaysOfMonth_subset h
    have hmem := List.mem_filter.mp hmemF
    refine ⟨hmem.1, hmem.2, ?_⟩
    intro e he hYM heRange
    exact lastDaysOfMonth_last_of_mem hsortF h e
      (List.mem_filter.mpr ⟨he, heRange⟩) hYM
  · rintro ⟨hmem, hrange, hlast⟩
    refine lastDaysOfMonth_mem_of_last hsortF (List.mem_filter.mpr ⟨hmem, hrange⟩) ?_
    intro e he hYM
    have heC := List.mem_filter.mp he
    exact hlast e heC.1 hYM heC.2

/-- C1 witness: `monthEndGate_fixed_range` applied to a concrete one-day
calendar. -/
theorem monthEndGate_fixed_range_witness :
    (⟨2020, 1, 2⟩ : Date) ∈ module_last_days_of_month [⟨2020, 1, 2⟩] :=
  (monthEndGate_fixed_range [⟨2020, 1, 2⟩] (by decide) ⟨2020, 1, 2⟩).mpr
    ⟨by decide, by decide, by decide⟩

-- Helper lemmas about `listMax`, `listMin` and `pyInt`.

theorem listMax_none : ∀ {l : List ℚ}, listMax l = none → l = [] := by
  intro l
  cases l with
  | nil => intro _; rfl
  | cons a t =>
    intro h
    simp only [listMax] at h
    cases htm : listMax t <;> simp [htm] at h

theorem listMax_spec :
    ∀ {l : List ℚ} {v : ℚ}, listMax l = some v → v ∈ l ∧ ∀ x ∈ l, x ≤ v := by
  intro l
  induction l with
  | nil => intro v h; exact absurd h (by simp [listMax])
  | cons x rest ih =>
    intro v h
    simp only [listMax] at h
    cases hrest : listMax rest with
    | none =>
      rw [hrest] at h
      have hx : x = v := by injection h
      subst hx
      have hnil : rest = [] := listMax_none hrest
      subst hnil
      exact ⟨List.mem_cons_self _ _, by intro y hy; simp at hy; exact hy.le⟩
    | some m =>
      rw [hrest] at h
      have hv : max x m = v := by injection h
      obtain ⟨hmMem, hmUb⟩ := ih hrest
      subst hv
      constructor
      · rcases le_total x m with hxm | hmx
        · rw [max_eq_right hxm]; exact List.mem_cons_of_mem x hmMem
        · rw [max_eq_left hmx]; exact List.mem_cons_self x rest
      · intro y hy
        rcases List.mem_cons.mp hy with h1 | h2
        · exact h1 ▸ le_max_left x m
        · exact (hmUb y h2).trans (le_max_right x m)

theorem listMin_none : ∀ {l : List ℚ}, listMin l = none → l = [] := by
  intro l
  cases l with
  | nil => intro _; rfl
  | cons a t =>
    intro h
    simp only [listMin] at h
    cases htm : listMin t <;> simp [htm] at h

theorem listMin_spec :
    ∀ {l : List ℚ} {v : ℚ}, listMin l = some v → v ∈ l ∧ ∀ x ∈ l, v ≤ x := by
  intro l
  induction l with
  | nil => intro v h; exact absurd h (by simp [listMin])
  | cons x rest ih =>
    intro v h
    simp only [listMin] at h
    cases hrest : listMin rest with
    | none =>
      rw [hrest] at h
      have hx : x = v := by injection h
      subst hx
      have hnil : rest = [] := listMin_none hrest
      subst hnil
      exact ⟨List.mem_cons_self _ _, by intro y hy; simp at hy; exact hy.ge⟩
    | some m =>
      rw [hrest] at h
      have hv : min x m = v := by injection h
      obtain ⟨hmMem, hmLb⟩ := ih hrest
      subst hv
      constructor
      · rcases le_total x m with hxm | hmx
        · rw [min_eq_left hxm]; exact List.mem_cons_self x rest
        · rw [min_eq_right hmx]; exact List.mem_cons_of_mem x hmMem
      · intro y hy
        rcases List.mem_cons.mp hy with h1 | h2
        · exact h1 ▸ min_le_left x m
        · exact (min_le_right x m).trans (hmLb y h2)

theorem pyInt_le_self {q : ℚ} (hq : 0 ≤ q) : ((pyInt q : ℤ) : ℚ) ≤ q := by
  have hnum : 0 ≤ q.num := Rat.num_nonneg.mpr hq
  have hdenNe : ((q.den : ℤ)) ≠ 0 := by
    have := q.den_pos
    omega
  have htdiv : q.num.tdiv (q.den : ℤ) = q.num / (q.den : ℤ) :=
    Int.tdiv_eq_ediv hnum (by positivity)
  have hmul : q.num / (q.den : ℤ) * (q.den : ℤ) ≤ q.num := Int.ediv_mul_le q.num hdenNe
  have hdenQ : (0 : ℚ) < (q.den : ℚ) := by exact_mod_cast q.den_pos
  have key : ((pyInt q : ℤ) : ℚ) * (q.den : ℚ) ≤ (q.num : ℚ) := by
    rw [pyInt, htdiv]
    exact_mod_cast hmul
  have h2 : q * (q.den : ℚ) = (q.num : ℚ) := by
    nth_rewrite 1 [← Rat.num_div_den q]
    exact div_mul_cancel₀ _ (ne_of_gt hdenQ)
  have h3 : ((pyInt q : ℤ) : ℚ) * (q.den : ℚ) ≤ q * (q.den : ℚ) := by
    rw [h2]; exact key
  exact le_of_mul_le_mul_right h3 hdenQ

/-- C4 counterexample: BollingerStrategy does NOT size its orders as a
buffered fraction strictly below 100% of cash: at cash 1000 and close 10 it
submits `int(1000/10) = 100` shares, whose notional at the signal price is
the full 1000 of cash (and the fraction is hardcoded, not configurable). -/
theorem sizing_not_buffered_cex :
    bollingerQuantity 1000 10 * 10 = 1000
    ∧ ¬ bollingerQuantity 1000 10 * 10 < 1000 := by
  have h10 : (1000 : ℚ) / 10 = 100 := by norm_num
  have h : bollingerQuantity 1000 10 * 10 = 1000 := by
    rw [bollingerQuantity, h10, pyInt]
    norm_num
  exact ⟨h, by rw [h]; exact lt_irrefl 1000⟩

/-- C4 amended: each strategy's sizing is a hardcoded (not configurable)
formula: BuyAndHold and SMA200 commit exactly 95% of cash (fractional
shares), VIX10 exactly 47.5%, RSI2 at most 90% (floored share count), while
Bollinger and Double7 floor the FULL cash over the close with no buffer (up
to 100% of cash). -/
theorem sizing_amended (cash close price : ℚ) :
    (close ≠ 0 → buyAndHoldQuantity cash close * close = (19/20) * cash)
    ∧ (close ≠ 0 → sma200Quantity cash close * close = (19/20) * cash)
    ∧ (close ≠ 0 → vix10Quantity cash close * close = (19/40) * cash)
    ∧ (0 ≤ cash → 0 < close → bollingerQuantity cash close * close ≤ cash)
    ∧ (0 ≤ cash → 0 < close → double7Quantity cash close * close ≤ cash)
    ∧ (0 ≤ cash → 0 < price → rsi2Quantity cash price * price ≤ (9/10) * cash) := by
  refine ⟨?_, ?_, ?_, ?_, ?_, ?_⟩
  · intro hc
    rw [buyAndHoldQuantity, div_mul_cancel₀ _ hc]; ring
  · intro hc
    rw [sma200Quantity, div_mul_cancel₀ _ hc]; ring
  · intro hc
    rw [vix10Quantity, div_mul_cancel₀ _ hc]; ring
  · intro hcash hc
    have hq : (0 : ℚ) ≤ cash / close := div_nonneg hcash hc.le
    calc bollingerQuantity cash close * close
        ≤ cash / close * close :=
          mul_le_mul_of_nonneg_right (pyInt_le_self hq) hc.le
      _ = cash := div_mul_cancel₀ _ (ne_of_gt hc)
  · intro hcash hc
    have hq : (0 : ℚ) ≤ cash / close := div_nonneg hcash hc.le
    calc double7Quantity cash close * close
        ≤ cash / close * close :=
          mul_le_mul_of_nonneg_right (pyInt_le_self hq) hc.le
      _ = cash := div_mul_cancel₀ _ (ne_of_gt hc)
  · intro hcash hp
    have hq : (0 : ℚ) ≤ cash * (9/10) / price :=
      div_nonneg (by linarith) hp.le
    calc rsi2Quantity cash price * price
        ≤ cash * (9/10) / price * price :=
          mul_le_mul_of_nonneg_right (pyInt_le_self hq) hp.le
      _ = cash * (9/10) := div_mul_cancel₀ _ (ne_of_gt hp)
      _ = (9/10) * cash := by ring

/-- C4 witness: `sizing_amended` at cash 1000, close 10, price 10. -/
theorem sizing_amended_witness :
    buyAndHoldQuantity 1000 10 * 10 = (19/20) * 1000
    ∧ rsi2Quantity 1000 10 * 10 ≤ (9/10) * 1000 :=
  ⟨(sizing_amended 1000 10 10).1 (by norm_num),
   (sizing_amended 1000 10 10).2.2.2.2.2 (by norm_num) (by norm_num)⟩

/-- C5 counterexample: Double7Strategy's rolling indicators are computed
over the ADJUSTED CLOSE series, not the bar highs/lows: on a concrete 7-bar
series the strategy's `instrument_high`/`instrument_low` at index 6 are
`some 56`/`some 50` while the max of the last 7 bar highs is `some 106` and
the min of the last 7 bar lows is `some 1`. -/
theorem double7_indicators_not_bar_highlow :
    double7_instrument_high cexBars 6 ≠ specHighOfBars cexBars 6
    ∧ double7_instrument_low cexBars 6 ≠ specLowOfBars cexBars 6
    ∧ double7_instrument_high cexBars 6 = some 56
    ∧ specHighOfBars cexBars 6 = some 106
    ∧ double7_instrument_low cexBars 6 = some 50
    ∧ specLowOfBars cexBars 6 = some 1 := by
  refine ⟨by decide, by decide, by decide, by decide, by decide, by decide⟩

/-- C5 amended: at every index with sufficient history, Double7Strategy's
Rolling High (resp. Low) indicator is attained by and is an upper (resp.
lower) bound of the last 7 ADJUSTED CLOSES — the strategy builds both
indicators over the adjusted-close series. -/
theorem double7_indicators_adjclose_window (bars : List Bar) (i : Nat) (v : ℚ) :
    (double7_instrument_high bars i = some v →
      v ∈ windowSlice (bars.map Bar.adjClose) 7 i ∧
      ∀ x ∈ windowSlice (bars.map Bar.adjClose) 7 i, x ≤ v)
    ∧ (double7_instrument_low bars i = some v →
      v ∈ windowSlice (bars.map Bar.adjClose) 7 i ∧
      ∀ x ∈ windowSlice (bars.map Bar.adjClose) 7 i, v ≤ x) := by
  constructor
  · intro h
    rw [double7_instrument_high, rollingHighAt] at h
    split at h
    · exact listMax_spec h
    · exact absurd h (by simp)
  · intro h
    rw [double7_instrument_low, rollingLowAt] at h
    split at h
    · exact listMin_spec h
    · exact absurd h (by simp)

/-- C5 witness: `double7_indicators_adjclose_window` on the concrete 7-bar
series. -/
theorem double7_indicators_adjclose_window_witness :
    (56 : ℚ) ∈ windowSlice (cexBars.map Bar.adjClose) 7 6 ∧
      ∀ x ∈ windowSlice (cexBars.map Bar.adjClose) 7 6, x ≤ 56 :=
  (double7_indicators_adjclose_window cexBars 6 56).1 (by decide)

-- Replay helper for BuyAndHoldStrategy.

theorem buyAndHold_runAux_some (cashAt : Nat → ℚ) :
    ∀ (closes : List ℚ) (i : Nat) (u : Unit),
      buyAndHold_runAux cashAt i (some u) closes = (some u, []) := by
  intro closes
  induction closes with
  | nil => intro i u; rfl
  | cons c rest ih =>
    intro i u
    simp [buyAndHold_runAux, buyAndHold_onBars, ih]

/-- C2: over any non-empty close series, BuyAndHoldStrategy submits exactly
one order — a long entry on the first bar, sized from the cash visible
there — and never submits an exit, so no position it opens is ever closed
by the strategy. -/
theorem buyAndHold_one_entry_no_exit (cashAt : Nat → ℚ) (closes : List ℚ)
    (h : closes ≠ []) :
    (buyAndHold_run cashAt closes).2 =
      [(0, Action.enterLong (buyAndHoldQuantity (cashAt 0) (closes.headD 0)))]
    ∧ ∀ p ∈ (buyAndHold_run cashAt closes).2, p.2 ≠ Action.exitMarket := by
  cases closes with
  | nil => exact absurd rfl h
  | cons c rest =>
    have h1 : (buyAndHold_run cashAt (c :: rest)).2 =
        [(0, Action.enterLong (buyAndHoldQuantity (cashAt 0) c))] := by
      simp [buyAndHold_run, buyAndHold_runAux, buyAndHold_onBars,
        buyAndHold_runAux_some]
    refine ⟨by simpa using h1, ?_⟩
    intro p hp
    rw [h1] at hp
    simp at hp
    rw [hp]
    simp

/-- C2 witness: `buyAndHold_one_entry_no_exit` on the one-bar series [10]
with cash 1000. -/
theorem buyAndHold_one_entry_no_exit_witness :
    (buyAndHold_run (fun _ => 1000) [10]).2 =
      [(0, Action.enterLong (buyAndHoldQuantity 1000 (([10] : List ℚ).headD 0)))]
    ∧ ∀ p ∈ (buyAndHold_run (fun _ => 1000) [10]).2, p.2 ≠ Action.exitMarket :=
  buyAndHold_one_entry_no_exit (fun _ => 1000) [10] (by simp)

/-- C3 counterexample: on the scenario closes [10, 11, 9, 12, 13] with cash
1000, BuyAndHoldStrategy submits its single entry on bar 0 with quantity
`0.95 * 1000 / 10 = 95` — the buffer is the hardcoded 0.95 (not a
configurable 1.0), the quantity is computed from bar 0's close, not from
the fill price 11, and it is not floored — whereas the claim asserts order
quantity `floor(1000/11) = 90`. -/
theorem buyAndHold_scenario_cex :
    (buyAndHold_run (fun _ => 1000) scenarioCloses).2 = [(0, Action.enterLong 95)]
    ∧ (95 : ℚ) ≠ 90
    ∧ ⌊(1000 : ℚ) / 11⌋ = 90 := by
  refine ⟨?_, by norm_num, ?_⟩
  · simp [buyAndHold_run, scenarioCloses, buyAndHold_runAux, buyAndHold_onBars,
      buyAndHold_runAux_some, buyAndHoldQuantity]
    norm_num
  · rw [Int.floor_eq_iff] <;> norm_num

/-- C3 amended: on the scenario the strategy submits exactly one order, a
long entry on bar 0 for 95 shares (0.95·1000/10, unfloored, from bar 0's
close); at the one-bar-delayed fill price 11 the required cash 1045 exceeds
the available 1000, so under the spec's broker model the entry is Rejected;
the strategy never submits an exit, so the closed-trade count is 0. -/
theorem buyAndHold_scenario_amended :
    (buyAndHold_run (fun _ => 1000) scenarioCloses).2 = [(0, Action.enterLong 95)]
    ∧ brokerBuyFill 1000 0 11 95 = FillResult.rejected
    ∧ ∀ p ∈ (buyAndHold_run (fun _ => 1000) scenarioCloses).2,
        p.2 ≠ Action.exitMarket := by
  have h1 : (buyAndHold_run (fun _ => 1000) scenarioCloses).2 =
      [(0, Action.enterLong 95)] := by
    simp [buyAndHold_run, scenarioCloses, buyAndHold_runAux, buyAndHold_onBars,
      buyAndHold_runAux_some, buyAndHoldQuantity]
    norm_num
  refine ⟨h1, ?_, ?_⟩
  · rw [brokerBuyFill, if_pos (by norm_num)]
  · intro p hp
    rw [h1] at hp
    simp at hp
    rw [hp]
    simp

/-- C6: with all three indicators available, RSI2Strategy enters (when
flat) iff the bar price is strictly above the entry SMA and the RSI is at
most the oversold threshold, and exits (when long) iff the price series
crosses above the exit SMA. -/
theorem rsi2_signal_iff (em xm rv oversold price cash : ℚ) (cross : Bool) :
    ((∃ q, Action.enterLong q ∈
        (rsi2_onBars (some em) (some xm) (some rv) oversold price cash cross none).2)
      ↔ (price > em ∧ rv ≤ oversold))
    ∧ ((Action.exitMarket ∈
        (rsi2_onBars (some em) (some xm) (some rv) oversold price cash cross (some ())).2)
      ↔ cross = true) := by
  constructor
  · constructor
    · rintro ⟨q, hq⟩
      by_cases h : price > em ∧ rv ≤ oversold
      · exact h
      · rw [rsi2_onBars] at hq
        simp only [if_neg h] at hq
        simp at hq
    · intro h
      exact ⟨rsi2Quantity cash price, by rw [rsi2_onBars]; simp only [if_pos h]; simp⟩
  · cases cross with
    | true => simp [rsi2_onBars]
    | false => simp [rsi2_onBars]

/-- C7: for each indicator-using strategy, whenever an indicator value it
None-checks is `None`, `onBars` returns leaving `self.position` unchanged
and submitting no order (and, for Double7Strategy, without raising). -/
theorem indicator_none_noop :
    (∀ (gate : List Date) (close : ℚ) (date : Date) (cash : ℚ) (pos : Option Unit),
      sma200_onBars none gate close date cash pos = (pos, []))
    ∧ (∀ (close cash shares : ℚ) (pos : Option Unit),
      bollinger_onBars none close cash shares pos = (pos, []))
    ∧ (∀ (lowV highV : Option ℚ) (close cash shares : ℚ) (pos : Option Unit),
      double7_onBars none lowV highV close cash shares pos = Except.ok (pos, []))
    ∧ (∀ (vm m : Option ℚ) (gate : List Date) (vc c : ℚ) (date : Date)
        (cash : ℚ) (pos : Option Unit), vm = none ∨ m = none →
      vix10_onBars vm m gate vc c date cash pos = (pos, []))
    ∧ (∀ (em xm rv : Option ℚ) (os p cash : ℚ) (cr : Bool) (pos : Option Unit),
        em = none ∨ xm = none ∨ rv = none →
      rsi2_onBars em xm rv os p cash cr pos = (pos, [])) := by
  refine ⟨fun _ _ _ _ _ => rfl, fun _ _ _ _ => rfl, fun _ _ _ _ _ _ => rfl, ?_, ?_⟩
  · rintro vm m gate vc c date cash pos (h | h)
    · subst h; cases m <;> rfl
    · subst h; cases vm <;> rfl
  · rintro em xm rv os p cash cr pos (h | h | h)
    · subst h; cases xm <;> cases rv <;> rfl
    · subst h; cases em <;> cases rv <;> rfl
    · subst h; cases em <;> cases xm <;> rfl

/-- C7 witness: `indicator_none_noop` instantiated for VIX10Strategy and
RSI2Strategy at concrete inputs with a `None` indicator. -/
theorem indicator_none_noop_witness :
    vix10_onBars none (some 1) [] 1 1 ⟨2020, 1, 1⟩ 1000 none = (none, [])
    ∧ rsi2_onBars none (some 1) (some 1) 10 1 1000 false none = (none, []) :=
  ⟨indicator_none_noop.2.2.2.1 none (some 1) [] 1 1 ⟨2020, 1, 1⟩ 1000 none
      (Or.inl rfl),
   indicator_none_noop.2.2.2.2 none (some 1) (some 1) 10 1 1000 false none
      (Or.inl rfl)⟩

/-- C8: when the trade analyzer reports zero closed trades, log_backtest
produces (totally, without raising) a report whose keys are exactly the
base metadata block — it contains `total_trades = 0` and omits the overall,
profitable and unprofitable per-trade statistic blocks instead of computing
statistics over an empty set. -/
theorem log_backtest_zero_trades (meta : BacktestMeta) (std : List ℚ → ℚ) :
    ("total_trades", LogValue.nat 0) ∈ log_backtest meta std []
    ∧ (log_backtest meta std []).map Prod.fst =
      ["strategy", "instrument", "start_date", "end_date", "run_date",
       "final_portfolio_value_$", "cumulative_returns_%", "sharpe_ratio",
       "max_drawdown_%", "longest_drawdown_duration", "total_trades"]
    ∧ "avg_profit_$" ∉ (log_backtest meta std []).map Prod.fst
    ∧ "avg_return_%" ∉ (log_backtest meta std []).map Prod.fst
    ∧ "profitable_trades" ∉ (log_backtest meta std []).map Prod.fst
    ∧ "unprofitable_trades" ∉ (log_backtest meta std []).map Prod.fst := by
  refine ⟨?_, ?_, ?_, ?_, ?_, ?_⟩ <;>
    simp [log_backtest, profitableTrades, unprofitableTrades]

/-- C8 witness: `log_backtest_zero_trades` at a concrete metadata record. -/
theorem log_backtest_zero_trades_witness :
    ("total_trades", LogValue.nat 0) ∈
      log_backtest ⟨"BuyAndHoldStrategy", "SPY", "2000-01-01", "2022-03-17",
        "2022-03-18", 10000, 0, 0, 0, "0 days"⟩ (fun _ => 0) [] :=
  (log_backtest_zero_trades ⟨"BuyAndHoldStrategy", "SPY", "2000-01-01",
    "2022-03-17", "2022-03-18", 10000, 0, 0, 0, "0 days"⟩ (fun _ => 0)).1

/-- C9: when the module-level name `index` is unbound at call time,
RSI2Strategy's constructor raises NameError whatever its arguments, and no
instance is created. -/
theorem rsi2_init_nameError (instrument : String) (e x r : Nat)
    (ob os cash : ℚ) :
    RSI2Strategy_init none instrument e x r ob os cash =
      Except.error PyErr.nameError
    ∧ ∀ s : RSI2State,
        RSI2Strategy_init none instrument e x r ob os cash ≠ Except.ok s := by
  refine ⟨rfl, ?_⟩
  intro s h
  simp [RSI2Strategy_init] at h

/-- C9 witness: `rsi2_init_nameError` at the default constructor
arguments. -/
theorem rsi2_init_nameError_witness :
    RSI2Strategy_init none "spy" 200 5 2 90 10 10000 =
      Except.error PyErr.nameError :=
  (rsi2_init_nameError "spy" 200 5 2 90 10 10000).1

-- Character and path lemmas for the CSV round trip.

theorem pyUpperChar_dot : pyUpperChar '.' = '.' := by decide

theorem pyUpperChar_eq_dot {c : Char} (h : pyUpperChar c = '.') : c = '.' := by
  rw [pyUpperChar] at h
  cases hf : upperTable.find? (fun p => p.1 == c) with
  | none =>
    rw [hf] at h
    simpa using h
  | some p =>
    rw [hf] at h
    simp at h
    have hmem : p ∈ upperTable := List.mem_of_find?_eq_some hf
    have hall : ∀ x ∈ upperTable, x.2 ≠ '.' := by decide
    exact absurd h (hall p hmem)

theorem dot_mem_pyUpper {l : List Char} (h : '.' ∈ l) : '.' ∈ pyUpper l :=
  List.mem_map.mpr ⟨'.', h, pyUpperChar_dot⟩

theorem dot_not_mem_pyUpper {l : List Char} (h : '.' ∉ l) : '.' ∉ pyUpper l := by
  intro hmem
  rcases List.mem_map.mp hmem with ⟨c, hc, hcu⟩
  exact h (pyUpperChar_eq_dot hcu ▸ hc)

theorem replaceDot_eq_self_of_not_mem :
    ∀ {l : List Char}, '.' ∉ l → replaceDot l = l := by
  intro l
  induction l with
  | nil => intro _; rfl
  | cons c rest ih =>
    intro h
    have hc : c ≠ '.' := fun hc => h (hc ▸ List.mem_cons_self c rest)
    have hrest : '.' ∉ rest := fun hr => h (List.mem_cons_of_mem c hr)
    calc replaceDot (c :: rest)
        = (if c = '.' then '-' else c) :: replaceDot rest := rfl
      _ = c :: replaceDot rest := by rw [if_neg hc]
      _ = c :: rest := by rw [ih hrest]

theorem replaceDot_ne_self_of_mem :
    ∀ {l : List Char}, '.' ∈ l → replaceDot l ≠ l := by
  intro l
  induction l with
  | nil => intro h; exact absurd h (by simp)
  | cons c rest ih =>
    intro h heq
    simp only [replaceDot, List.map_cons, List.cons.injEq] at heq
    by_cases hc : c = '.'
    · subst hc
      rw [if_pos rfl] at heq
      exact absurd heq.1 (by decide)
    · have hrest : '.' ∈ rest := by
        rcases List.mem_cons.mp h with h1 | h2
        · exact absurd h1.symm hc
        · exact h2
      exact ih hrest heq.2

theorem paths_eq_iff (ticker interval startDate endDate : List Char) :
    get_ticker_data_path ticker "1d".toList startDate endDate =
      feed_csv_path ticker interval startDate endDate
    ↔ ('.' ∉ ticker ∧ interval = "1d".toList) := by
  constructor
  · intro h
    rw [get_ticker_data_path, feed_csv_path] at h
    have h1 := List.append_cancel_left h
    have hlen : (replaceDot (pyUpper ticker)).length = (pyUpper ticker).length := by
      simp [replaceDot]
    obtain ⟨hT, hrest⟩ := List.append_inj h1 hlen
    have h2 := List.append_cancel_left hrest
    have h3 := List.append_cancel_right h2
    refine ⟨?_, h3.symm⟩
    intro hdot
    exact replaceDot_ne_self_of_mem (dot_mem_pyUpper hdot) hT
  · rintro ⟨hdot, hint⟩
    subst hint
    rw [get_ticker_data_path, feed_csv_path,
      replaceDot_eq_self_of_not_mem (dot_not_mem_pyUpper hdot)]

/-- C10: after create_feed's first read failed (the file was absent), the
fetch-then-reread recovery succeeds exactly for dot-free tickers at the
default interval "1d"; for every ticker containing a dot or every interval
other than "1d", get_ticker_data writes a different path from the one
create_feed re-reads, so the second `addBarsFromCSV` raises
FileNotFoundError. -/
theorem create_feed_roundtrip (files : List (List Char))
    (ticker interval startDate endDate : List Char)
    (hmiss : feed_csv_path ticker interval startDate endDate ∉ files) :
    (('.' ∈ ticker ∨ interval ≠ "1d".toList) →
      create_feed_retry files ticker interval startDate endDate =
        Except.error PyErr.fileNotFoundError)
    ∧ (('.' ∉ ticker ∧ interval = "1d".toList) →
      create_feed_retry files ticker interval startDate endDate =
        Except.ok ()) := by
  constructor
  · intro h
    rw [create_feed_retry, addBarsFromCSV, if_neg]
    intro hmem
    rcases List.mem_cons.mp hmem with heq | hfiles
    · have := (paths_eq_iff ticker interval startDate endDate).mp heq.symm
      rcases h with h | h
      · exact this.1 h
      · exact h this.2
    · exact hmiss hfiles
  · intro h
    rw [create_feed_retry, addBarsFromCSV, if_pos]
    exact List.mem_cons.mpr
      (Or.inl ((paths_eq_iff ticker interval startDate endDate).mpr h).symm)

/-- C10 witness: `create_feed_roundtrip` with an empty file system, the
dotted ticker "brk.b" at interval "1d" (failure case) and the plain ticker
"spy" at interval "1d" (success case). -/
theorem create_feed_roundtrip_witness :
    create_feed_retry [] "brk.b".toList "1d".toList "2000-01-01".toList
        "2022-03-17".toList = Except.error PyErr.fileNotFoundError
    ∧ create_feed_retry [] "spy".toList "1d".toList "2000-01-01".toList
        "2022-03-17".toList = Except.ok () :=
  ⟨(create_feed_roundtrip [] "brk.b".toList "1d".toList "2000-01-01".toList
      "2022-03-17".toList (by simp)).1 (Or.inl (by decide)),
   (create_feed_roundtrip [] "spy".toList "1d".toList "2000-01-01".toList
      "2022-03-17".toList (by simp)).2 ⟨by decide, rfl⟩⟩

/-- C6 witness: `rsi2_signal_iff` instantiated at price 10 above an entry
SMA of 5 with RSI 5 at or below the oversold threshold 10: an entry order
is submitted. -/
theorem rsi2_signal_iff_witness :
    ∃ q, Action.enterLong q ∈
      (rsi2_onBars (some 5) (some 5) (some 5) 10 10 1000 false none).2 :=
  (rsi2_signal_iff 5 5 5 10 10 1000 false).1.mpr ⟨by norm_num, by norm_num⟩

end AlgoTrading
